import Mathlib

/-!
Verification development for the ErrorReport Angular SDK core
(security sanitization, rate limiting, circuit breaker, retry manager,
quota manager, batch manager, offline queue, SDK monitor).

JavaScript strings are modelled as `List Char`; JS numbers used as
integral counters/timestamps are modelled as `Nat`/`Int`, and the two
places where fractional arithmetic matters (retry jitter, average batch
size) use `ℚ`.  Regex-based string rewriting is modelled by dedicated
scanners that implement the deterministic backtracking behaviour of the
concrete patterns used in the source.  A `Nat` fuel argument equal to
the input length makes the scanners structurally recursive; one
character is consumed per step, so fuel `s.length` is never exhausted.
-/

namespace ErrSDK

/-! ### Character and string helpers (ASCII fragment of JS semantics) -/

/-- ASCII lower-casing, the fragment of `String.prototype.toLowerCase`
relevant to the all-ASCII denylist and patterns. -/
def jsToLower (c : Char) : Char :=
  if 'A' ≤ c ∧ c ≤ 'Z' then Char.ofNat (c.toNat + 32) else c

/-- Case-insensitive character comparison (regex `i` flag, ASCII). -/
def charCI (a b : Char) : Bool := jsToLower a == jsToLower b

/-- Does the text (second argument) start with the literal (first argument)? -/
def listStartsWith : List Char → List Char → Bool
  | [], _ => true
  | _ :: _, [] => false
  | p :: ps, c :: cs => p == c && listStartsWith ps cs

/-- Case-insensitive version of `listStartsWith`. -/
def listStartsWithCI : List Char → List Char → Bool
  | [], _ => true
  | _ :: _, [] => false
  | p :: ps, c :: cs => charCI p c && listStartsWithCI ps cs

/-- `haystack.includes(needle)` for JS strings (case sensitive). -/
def listContains (needle : List Char) : List Char → Bool
  | [] => needle.isEmpty
  | c :: cs => listStartsWith needle (c :: cs) || listContains needle cs

/-- JS regex `\w` character class: `[A-Za-z0-9_]`. -/
def isWordChar (c : Char) : Bool :=
  ('a' ≤ c && c ≤ 'z') || ('A' ≤ c && c ≤ 'Z') || ('0' ≤ c && c ≤ '9') || c == '_'

/-- JS regex `\s` character class (ASCII whitespace fragment). -/
def isSpaceChar (c : Char) : Bool :=
  c == ' ' || c == '\t' || c == '\n' || c == '\r' ||
    c == Char.ofNat 11 || c == Char.ofNat 12

/-! ### SecurityValidatorService.isSensitiveKey -/

/-- The sensitive-key denylist of `SecurityValidatorService.isSensitiveKey`. -/
def sensitiveKeys : List (List Char) :=
  ["password", "passwd", "pwd", "secret", "token", "key", "api_key", "apikey",
   "auth", "authorization", "cookie", "session", "csrf", "ssn",
   "social_security", "credit_card", "card_number", "cvv", "pin"].map
    String.toList

/-- `isSensitiveKey`: case-insensitive substring match of any denylist word. -/
def isSensitiveKey (k : List Char) : Bool :=
  sensitiveKeys.any (fun w => listContains w (k.map jsToLower))

/-! ### SecurityValidatorService.sanitizeString

The four replacements, in source order:
  `/<script[^>]*>.*?<\/script>/gi` → `[script removed]`
  `/javascript:/gi`                → `javascript_removed:`
  `/vbscript:/gi`                  → `vbscript_removed:`
  `/on\w+\s*=/gi`                  → `event_removed=`
followed by `.slice(0, 10000)`.

For these particular patterns the JS backtracking search is
deterministic: `[^>]*` must stop at the first `>`, the shortening
alternatives of `\w+` and `\s*` can never be followed by the required
literal, and the lazy `.*?` takes the earliest `</script>` not preceded
by a newline (`.` does not match `\n`). -/

def scriptOpenPat : List Char := "<script".toList
def scriptClosePat : List Char := "</script>".toList
def scriptMarker : List Char := "[script removed]".toList
def jsProtoPat : List Char := "javascript:".toList
def jsProtoMarker : List Char := "javascript_removed:".toList
def vbProtoPat : List Char := "vbscript:".toList
def vbProtoMarker : List Char := "vbscript_removed:".toList
def onMarker : List Char := "event_removed=".toList

/-- Lazy search for `</script>` (case-insensitive): at each position the
closing literal is tried first, otherwise one non-newline character is
consumed (`.` does not match `\n`).  Returns the number of characters up
to and including the closing tag. -/
def findCloseScript : List Char → Option Nat
  | [] => none
  | c :: cs =>
    if listStartsWithCI scriptClosePat (c :: cs) then some scriptClosePat.length
    else if c == '\n' then none
    else (findCloseScript cs).map (· + 1)

/-- Length of a `<script[^>]*>.*?</script>` match starting at the head of
the list, if any. -/
def matchScriptAt (cs : List Char) : Option Nat :=
  if listStartsWithCI scriptOpenPat cs then
    let rest := cs.drop scriptOpenPat.length
    let attrs := rest.takeWhile (fun c => c != '>')
    match rest.drop attrs.length with
    | '>' :: rest2 =>
      (findCloseScript rest2).map
        (fun m => scriptOpenPat.length + attrs.length + 1 + m)
    | _ => none
  else none

/-- Global left-to-right replacement of script tags (fuelled scanner). -/
def replaceScriptF : Nat → List Char → List Char
  | 0, cs => cs
  | _ + 1, [] => []
  | f + 1, c :: cs =>
    match matchScriptAt (c :: cs) with
    | some n => scriptMarker ++ replaceScriptF f (List.drop (n - 1) cs)
    | none => c :: replaceScriptF f cs

def replaceScriptTags (cs : List Char) : List Char := replaceScriptF cs.length cs

/-- Global case-insensitive replacement of a literal pattern. -/
def replaceLitCIF (pat marker : List Char) : Nat → List Char → List Char
  | 0, cs => cs
  | _ + 1, [] => []
  | f + 1, c :: cs =>
    if listStartsWithCI pat (c :: cs) then
      marker ++ replaceLitCIF pat marker f (List.drop (pat.length - 1) cs)
    else c :: replaceLitCIF pat marker f cs

def replaceLitCI (pat marker cs : List Char) : List Char :=
  replaceLitCIF pat marker cs.length cs

/-- Length of an `on\w+\s*=` match starting at the head of the list:
`on` (case-insensitive), a maximal nonempty `\w` run, a maximal `\s` run,
then a literal `=`. -/
def matchOnAt : List Char → Option Nat
  | c1 :: c2 :: rest =>
    if charCI c1 'o' && charCI c2 'n' then
      let w := rest.takeWhile isWordChar
      if w.isEmpty then none
      else
        let r1 := rest.drop w.length
        let sp := r1.takeWhile isSpaceChar
        match r1.drop sp.length with
        | '=' :: _ => some (2 + w.length + sp.length + 1)
        | _ => none
    else none
  | _ => none

/-- Global replacement of inline event handler patterns (fuelled scanner). -/
def replaceOnF : Nat → List Char → List Char
  | 0, cs => cs
  | _ + 1, [] => []
  | f + 1, c :: cs =>
    match matchOnAt (c :: cs) with
    | some n => onMarker ++ replaceOnF f (List.drop (n - 1) cs)
    | none => c :: replaceOnF f cs

def replaceOnPat (cs : List Char) : List Char := replaceOnF cs.length cs

/-- `SecurityValidatorService.sanitizeString`: the four replacements in
source order, then truncation to 10000 characters. -/
def sanitizeString (s : List Char) : List Char :=
  List.take 10000
    (replaceOnPat (replaceLitCI vbProtoPat vbProtoMarker
      (replaceLitCI jsProtoPat jsProtoMarker (replaceScriptTags s))))

/-! ### SecurityValidatorService.sanitizeData

Untrusted payloads are the tagged-variant value domain handled by the
sanitizer: strings, numbers, booleans, null/undefined, arrays, objects.
Objects are ordered key/value sequences (`Object.entries` order); JS
`Map`-free objects cannot hold duplicate keys, which no claim here
depends on. -/

mutual
inductive JsValue where
  | vstr (s : List Char)
  | vnum (n : Int)
  | vbool (b : Bool)
  | vnull
  | varr (xs : JsArr)
  | vobj (fs : JsObj)
  deriving DecidableEq

inductive JsArr where
  | anil
  | acons (hd : JsValue) (tl : JsArr)
  deriving DecidableEq

inductive JsObj where
  | onil
  | ocons (k : List Char) (v : JsValue) (tl : JsObj)
  deriving DecidableEq
end

mutual
/-- `sanitizeData`: recursive walk; strings sanitized, scalars passed
through, arrays mapped, object entries with sensitive keys dropped,
surviving keys sanitized. -/
def sanitizeData : JsValue → JsValue
  | .vstr s => .vstr (sanitizeString s)
  | .vnum n => .vnum n
  | .vbool b => .vbool b
  | .vnull => .vnull
  | .varr xs => .varr (sanitizeArr xs)
  | .vobj fs => .vobj (sanitizeFields fs)

def sanitizeArr : JsArr → JsArr
  | .anil => .anil
  | .acons x xs => .acons (sanitizeData x) (sanitizeArr xs)

def sanitizeFields : JsObj → JsObj
  | .onil => .onil
  | .ocons k v fs =>
    if isSensitiveKey k then sanitizeFields fs
    else .ocons (sanitizeString k) (sanitizeData v) (sanitizeFields fs)
end

mutual
/-- A value is sanitization-stable when every string in it is a fixed
point of `sanitizeString` and every object key is, additionally, not
sensitive. -/
def stableValue : JsValue → Bool
  | .vstr s => sanitizeString s == s
  | .vnum _ => true
  | .vbool _ => true
  | .vnull => true
  | .varr xs => stableArr xs
  | .vobj fs => stableFields fs

def stableArr : JsArr → Bool
  | .anil => true
  | .acons x xs => stableValue x && stableArr xs

def stableFields : JsObj → Bool
  | .onil => true
  | .ocons k v fs =>
    (sanitizeString k == k) && !isSensitiveKey k && stableValue v && stableFields fs
end

mutual
/-- Every object key anywhere in the value is the `sanitizeString` image
of some non-sensitive key. -/
def KeysFromSanitizer : JsValue → Prop
  | .vstr _ => True
  | .vnum _ => True
  | .vbool _ => True
  | .vnull => True
  | .varr xs => KeysFromSanitizerArr xs
  | .vobj fs => KeysFromSanitizerFields fs

def KeysFromSanitizerArr : JsArr → Prop
  | .anil => True
  | .acons x xs => KeysFromSanitizer x ∧ KeysFromSanitizerArr xs

def KeysFromSanitizerFields : JsObj → Prop
  | .onil => True
  | .ocons k v fs =>
    (∃ k₀, isSensitiveKey k₀ = false ∧ k = sanitizeString k₀) ∧
      KeysFromSanitizer v ∧ KeysFromSanitizerFields fs
end

/-! ### RateLimiterService

State: the request log and the fingerprint → last-seen `Map`, modelled
as an association list with `Map.set` replace-or-append semantics.
Timestamps are `Date.now()` values passed in explicitly. -/

structure RateLimiterConfig where
  maxRequests : Nat
  windowMs : Nat
  duplicateErrorWindow : Nat
  deriving DecidableEq

def defaultRateLimiterConfig : RateLimiterConfig := ⟨10, 60000, 5000⟩

structure RequestLog where
  timestamp : Nat
  fingerprint : Option (List Char)
  deriving DecidableEq

structure RateLimiterState where
  requests : List RequestLog
  errorFingerprints : List (List Char × Nat)
  deriving DecidableEq

def initRateLimiter : RateLimiterState := ⟨[], []⟩

def fpLookup (m : List (List Char × Nat)) (k : List Char) : Option Nat :=
  (m.find? (fun p => p.1 == k)).map (·.2)

def fpSet (k : List Char) (t : Nat) : List (List Char × Nat) → List (List Char × Nat)
  | [] => [(k, t)]
  | p :: ps => if p.1 == k then (k, t) :: ps else p :: fpSet k t ps

/-- `canReportError`: `!lastReported` is JS-falsy both for a missing
entry and for a recorded time of `0`. -/
def canReportError (cfg : RateLimiterConfig) (st : RateLimiterState)
    (now : Nat) (fp : List Char) : Bool :=
  match fpLookup st.errorFingerprints fp with
  | none => true
  | some last =>
    if last == 0 then true
    else decide ((now : Int) - last > (cfg.duplicateErrorWindow : Int))

/-- `recordRequest`: appends a log entry; `if (fingerprint)` is JS-falsy
for a missing fingerprint and for the empty string. -/
def recordRequest (st : RateLimiterState) (now : Nat)
    (fp : Option (List Char)) : RateLimiterState :=
  let st1 : RateLimiterState := ⟨st.requests ++ [⟨now, fp⟩], st.errorFingerprints⟩
  match fp with
  | some f =>
    if f.isEmpty then st1
    else ⟨st1.requests, fpSet f now st1.errorFingerprints⟩
  | none => st1

/-! ### CircuitBreakerService -/

inductive CircuitState where
  | cbClosed
  | cbOpen
  | cbHalfOpen
  deriving DecidableEq

structure CircuitBreakerConfig where
  failureThreshold : Nat
  timeout : Nat
  resetTimeout : Nat
  deriving DecidableEq

def defaultCircuitBreakerConfig : CircuitBreakerConfig := ⟨5, 30000, 60000⟩

structure CBState where
  state : CircuitState
  failureCount : Nat
  successCount : Nat
  lastFailureTime : Option Nat
  nextRetryTime : Option Nat
  deriving DecidableEq

def cbInit : CBState := ⟨.cbClosed, 0, 0, none, none⟩

/-- `isCallAllowed` both reports admission and performs the
OPEN → HALF_OPEN transition; `this.nextRetryTime &&` is JS-falsy for
`null` and for `0`. -/
def isCallAllowed (st : CBState) (now : Nat) : Bool × CBState :=
  match st.state with
  | .cbClosed => (true, st)
  | .cbOpen =>
    match st.nextRetryTime with
    | some nrt =>
      if nrt ≠ 0 ∧ nrt ≤ now then (true, { st with state := .cbHalfOpen })
      else (false, st)
    | none => (false, st)
  | .cbHalfOpen => (true, st)

def tripCircuit (cfg : CircuitBreakerConfig) (st : CBState) (now : Nat) : CBState :=
  { st with state := .cbOpen, nextRetryTime := some (now + cfg.timeout) }

def cbReset : CBState := cbInit

def onSuccess (st : CBState) : CBState :=
  let st1 := { st with successCount := st.successCount + 1 }
  if st1.state = .cbHalfOpen then cbReset else st1

def onFailure (cfg : CircuitBreakerConfig) (st : CBState) (now : Nat) : CBState :=
  let st1 := { st with failureCount := st.failureCount + 1,
                       lastFailureTime := some now }
  if st1.state = .cbHalfOpen then tripCircuit cfg st1 now
  else if st1.failureCount ≥ cfg.failureThreshold then tripCircuit cfg st1 now
  else st1

inductive CBError (ε : Type) where
  | circuitOpen
  | opError (e : ε)
  deriving DecidableEq

/-- `execute`: admission check, then run the wrapped operation (its
outcome is passed in as `opResult`) and record the result. -/
def cbExecute {ε α : Type} (cfg : CircuitBreakerConfig) (st : CBState)
    (now : Nat) (opResult : Except ε α) : Except (CBError ε) α × CBState :=
  let (allowed, st1) := isCallAllowed st now
  if allowed then
    match opResult with
    | .ok v => (.ok v, onSuccess st1)
    | .error e => (.error (.opError e), onFailure cfg st1 now)
  else (.error .circuitOpen, st1)

/-- Fold a sequence of failing `execute` calls at the given times. -/
def applyFailures (cfg : CircuitBreakerConfig) (st : CBState)
    (ts : List Nat) : CBState :=
  ts.foldl (fun s t => (cbExecute (ε := Unit) (α := Unit) cfg s t (.error ())).2) st

/-! ### RetryManagerService -/

structure RetryConfig where
  maxRetries : Nat
  initialDelay : Nat
  maxDelay : Nat
  deriving DecidableEq

def defaultRetryConfig : RetryConfig := ⟨3, 1000, 30000⟩

/-- First match of `/HTTP (\d+):/` at the head of the list: the literal
`HTTP `, a maximal nonempty digit run, then `:`. -/
def matchHttpAt (cs : List Char) : Option Nat :=
  if listStartsWith "HTTP ".toList cs then
    let rest := cs.drop 5
    let ds := rest.takeWhile Char.isDigit
    if ds.isEmpty then none
    else
      match rest.drop ds.length with
      | ':' :: _ => some (ds.foldl (fun acc c => acc * 10 + (c.toNat - '0'.toNat)) 0)
      | _ => none
  else none

/-- `error.message.match(/HTTP (\d+):/)` with `parseInt` of the capture:
scan left to right for the first position that matches. -/
def matchHttpStatus : List Char → Option Nat
  | [] => none
  | c :: cs =>
    match matchHttpAt (c :: cs) with
    | some n => some n
    | none => matchHttpStatus cs

/-- `shouldRetry` over the error message. -/
def shouldRetry (cfg : RetryConfig) (msg : List Char) (attempt : Nat) : Bool :=
  if attempt ≥ cfg.maxRetries - 1 then false
  else if listContains "Rate limit exceeded by server".toList msg then true
  else if listContains "Request timeout".toList msg then true
  else if listContains "Network error".toList msg ||
          listContains "Failed to fetch".toList msg then true
  else
    match matchHttpStatus msg with
    | some status =>
      if status == 401 || status == 403 then false
      else decide (500 ≤ status) || status == 429 || status == 408
    | none => false

deriving instance DecidableEq for Except

/-- Outcome of `executeWithRetry` together with the observable trace:
how many times the operation was invoked and how many delayed retries
preceded the outcome.  `Except.error none` is the `throw lastError!`
fall-through with `lastError` still undefined (only reachable with
`maxRetries = 0`). -/
structure RetryTrace (α : Type) where
  result : Except (Option (List Char)) α
  invocations : Nat
  delays : Nat
  deriving DecidableEq

/-- The retry loop; `fuel` counts the remaining loop iterations
(`maxRetries - attempt`), so the recursion is structural. -/
def runRetryGo {α : Type} (cfg : RetryConfig) (op : Nat → Except (List Char) α) :
    Nat → Nat → Nat → Nat → RetryTrace α
  | 0, _, inv, del => ⟨.error none, inv, del⟩
  | f + 1, attempt, inv, del =>
    match op attempt with
    | .ok v => ⟨.ok v, inv + 1, del⟩
    | .error e =>
      if attempt == cfg.maxRetries - 1 then ⟨.error (some e), inv + 1, del⟩
      else if !shouldRetry cfg e attempt then ⟨.error (some e), inv + 1, del⟩
      else runRetryGo cfg op f (attempt + 1) (inv + 1) (del + 1)

/-- `executeWithRetry`, with the operation's per-attempt outcomes passed
in as `op`. -/
def executeWithRetry {α : Type} (cfg : RetryConfig)
    (op : Nat → Except (List Char) α) : RetryTrace α :=
  runRetryGo cfg op cfg.maxRetries 0 0 0

/-- `calculateDelay` over exact rationals; `r` is the `Math.random()`
draw, which lies in `[0, 1)`. -/
def calculateDelay (cfg : RetryConfig) (attempt : Nat) (r : ℚ) : ℚ :=
  let exponentialDelay : ℚ := (cfg.initialDelay : ℚ) * 2 ^ attempt
  let capped : ℚ := min exponentialDelay (cfg.maxDelay : ℚ)
  let jitter : ℚ := capped * (1 / 4) * (r - 1 / 2)
  max 0 (capped + jitter)

/-! ### QuotaManagerService

Calendar boundaries (`getNextDayReset`, `getNextMonthReset`) are
wall-clock computations over `Date`; they enter the model as the
environment-supplied values `nextDay` and `nextMonth` of each call. -/

structure QuotaConfig where
  dailyLimit : Nat
  monthlyLimit : Nat
  payloadSizeLimit : Nat
  burstLimit : Nat
  burstWindowMs : Nat
  deriving DecidableEq

def defaultQuotaConfig : QuotaConfig := ⟨1000, 10000, 1048576, 50, 60000⟩

structure QuotaPart where
  used : Nat
  resetTime : Nat
  deriving DecidableEq

structure QuotaStateM where
  daily : QuotaPart
  monthly : QuotaPart
  burst : QuotaPart
  deriving DecidableEq

/-- Lazy reset of the three windows, run at the start of every access. -/
def checkAndResetQuotas (cfg : QuotaConfig) (now nextDay nextMonth : Nat)
    (st : QuotaStateM) : QuotaStateM :=
  let b := if now ≥ st.burst.resetTime then ⟨0, now + cfg.burstWindowMs⟩ else st.burst
  let d := if now ≥ st.daily.resetTime then ⟨0, nextDay⟩ else st.daily
  let m := if now ≥ st.monthly.resetTime then ⟨0, nextMonth⟩ else st.monthly
  ⟨d, m, b⟩

/-- `canSendError`: burst, then daily, then monthly, then payload size. -/
def canSendError (cfg : QuotaConfig) (now nextDay nextMonth : Nat)
    (estimatedSize : Nat) (st : QuotaStateM) :
    (Bool × Option String) × QuotaStateM :=
  let st1 := checkAndResetQuotas cfg now nextDay nextMonth st
  if st1.burst.used ≥ cfg.burstLimit then
    ((false, some "Burst limit exceeded"), st1)
  else if st1.daily.used ≥ cfg.dailyLimit then
    ((false, some "Daily limit exceeded"), st1)
  else if st1.monthly.used ≥ cfg.monthlyLimit then
    ((false, some "Monthly limit exceeded"), st1)
  else if estimatedSize > cfg.payloadSizeLimit then
    ((false, some "Payload size limit exceeded"), st1)
  else ((true, none), st1)

/-- `recordErrorSent`: lazy reset, then all three counters incremented. -/
def recordErrorSent (cfg : QuotaConfig) (now nextDay nextMonth : Nat)
    (st : QuotaStateM) : QuotaStateM :=
  let st1 := checkAndResetQuotas cfg now nextDay nextMonth st
  ⟨⟨st1.daily.used + 1, st1.daily.resetTime⟩,
   ⟨st1.monthly.used + 1, st1.monthly.resetTime⟩,
   ⟨st1.burst.used + 1, st1.burst.resetTime⟩⟩

/-! ### BatchManagerService

`calculatePayloadSize` serializes the batch with `JSON.stringify` and
`TextEncoder`; it enters the model as the parameter `sizeFn`.  The
outcome of the injected send function is passed in per send event; the
await of a send is treated as completing before the next event of the
trace.  `lastSentAt` is omitted: no claim observes it. -/

structure BatchConfig where
  batchSize : Nat
  batchTimeout : Nat
  maxPayloadSize : Nat
  deriving DecidableEq

structure BatchStats where
  currentSize : Nat
  totalBatches : Nat
  totalErrors : Nat
  averageBatchSize : ℚ
  deriving DecidableEq

structure BatchState (α : Type) where
  currentBatch : List α
  stats : BatchStats
  timeoutArmed : Bool
  deriving DecidableEq

def initBatchState {α : Type} : BatchState α := ⟨[], ⟨0, 0, 0, 0⟩, false⟩

inductive SendRes where
  | noFn
  | sendOk
  | sendFail
  deriving DecidableEq

/-- `sendBatch`: swap the batch out, then (if a send function is set and
the send succeeds) bump `totalBatches` and recompute the average as
`totalErrors / totalBatches`. -/
def sendBatchStep {α : Type} (st : BatchState α) (res : SendRes) : BatchState α :=
  if st.currentBatch.isEmpty then st
  else
    let st1 : BatchState α :=
      { st with currentBatch := [],
                stats := { st.stats with currentSize := 0 },
                timeoutArmed := false }
    match res with
    | .noFn => st1
    | .sendFail => st1
    | .sendOk =>
      let tb := st1.stats.totalBatches + 1
      let newStats : BatchStats :=
        { st1.stats with
          totalBatches := tb,
          averageBatchSize := (st1.stats.totalErrors : ℚ) / (tb : ℚ) }
      { st1 with stats := newStats }

def shouldSendBatch {α : Type} (cfg : BatchConfig) (sizeFn : List α → Nat)
    (st : BatchState α) : Bool :=
  st.currentBatch.length ≥ cfg.batchSize || sizeFn st.currentBatch ≥ cfg.maxPayloadSize

/-- `addToBatch`: append, bump counters, then either flush or arm the
partial-batch timer. -/
def addToBatch {α : Type} (cfg : BatchConfig) (sizeFn : List α → Nat)
    (e : α) (res : SendRes) (st : BatchState α) : BatchState α :=
  let st1 : BatchState α :=
    { st with currentBatch := st.currentBatch ++ [e],
              stats := { st.stats with
                currentSize := st.currentBatch.length + 1,
                totalErrors := st.stats.totalErrors + 1 } }
  if shouldSendBatch cfg sizeFn st1 then sendBatchStep st1 res
  else if !st1.timeoutArmed then { st1 with timeoutArmed := true }
  else st1

inductive BatchEvent (α : Type) where
  | add (e : α) (res : SendRes)
  | flushEv (res : SendRes)
  | timerEv (res : SendRes)
  deriving DecidableEq

def batchEventRes {α : Type} : BatchEvent α → SendRes
  | .add _ r => r
  | .flushEv r => r
  | .timerEv r => r

/-- One externally observable step of the batch manager (`flush` calls
and timer firings guard on a nonempty batch before `sendBatch`). -/
def batchStep {α : Type} (cfg : BatchConfig) (sizeFn : List α → Nat)
    (st : BatchState α) : BatchEvent α → BatchState α
  | .add e res => addToBatch cfg sizeFn e res st
  | .flushEv res => if st.currentBatch.length > 0 then sendBatchStep st res else st
  | .timerEv res => if st.currentBatch.length > 0 then sendBatchStep st res else st

/-! ### OfflineManagerService.processQueue -/

structure QueuedReport (ρ : Type) where
  report : ρ
  timestamp : Nat
  attempts : Nat
  deriving DecidableEq

/-- The `for (const queuedReport of reportsToProcess)` loop: a failed
send bumps `attempts` and re-inserts at the queue front only while the
bumped count is below 3. -/
def requeueStep {ρ : Type} (outcome : ρ → Bool) :
    List (QueuedReport ρ) → List (QueuedReport ρ) → List (QueuedReport ρ)
  | [], q => q
  | r :: rs, q =>
    if outcome r.report then requeueStep outcome rs q
    else
      let r1 := { r with attempts := r.attempts + 1 }
      if r1.attempts < 3 then requeueStep outcome rs (r1 :: q)
      else requeueStep outcome rs q

/-- `processQueue`: guard, splice off a batch of 5, process it.
`outcome r = true` means the injected send function resolved for `r`. -/
def processQueue {ρ : Type} (hasSendFn processing online : Bool)
    (outcome : ρ → Bool) (queue : List (QueuedReport ρ)) : List (QueuedReport ρ) :=
  if !hasSendFn || processing || !online then queue
  else requeueStep outcome (queue.take 5) (queue.drop 5)

/-- Closed form of the fate of one processed report in a `processQueue`
pass: `none` when it leaves the queue (sent successfully, or failed at
the attempt cap), `some` of the bumped record when it is re-inserted. -/
def requeueUpdate {ρ : Type} (outcome : ρ → Bool) (r : QueuedReport ρ) :
    Option (QueuedReport ρ) :=
  if outcome r.report then none
  else if r.attempts + 1 < 3 then some { r with attempts := r.attempts + 1 }
  else none

/-! ### SDKMonitorService

The request `Map` is keyed by generated ids; only `startTime` is ever
read back from an entry (the other `RequestMetrics` fields are written
immediately before the entry is deleted).  `Math.round` is
`⌊x + 1/2⌋`. -/

structure SDKMetrics where
  errorsReported : Nat
  errorsDropped : Nat
  requestsSuccessful : Nat
  requestsFailed : Nat
  averageResponseTime : Int
  queueSize : Nat
  bytesTransmitted : Nat
  deriving DecidableEq

structure MonitorState where
  metrics : SDKMetrics
  requests : List (String × Nat)
  responseTimes : List Int
  deriving DecidableEq

def lookupReq (rs : List (String × Nat)) (id : String) : Option Nat :=
  (rs.find? (fun p => p.1 == id)).map (·.2)

/-- `Map.delete`: JS map keys are unique, so deleting a key removes its
only entry. -/
def removeReq (rs : List (String × Nat)) (id : String) : List (String × Nat) :=
  rs.filter (fun p => p.1 != id)

def jsRound (q : ℚ) : Int := ⌊q + 1 / 2⌋

def updateAverage (rts : List Int) : Int :=
  if rts.isEmpty then 0 else jsRound ((rts.sum : ℚ) / (rts.length : ℚ))

/-- Shared tail of `recordRequestSuccess`/`recordRequestFailure`:
push the response time, trim the window to 100, recompute the average,
delete the request. -/
def completeRequest (st : MonitorState) (id : String) (start now : Nat)
    (succeeded : Bool) : MonitorState :=
  let rt : Int := (now : Int) - (start : Int)
  let rts1 := st.responseTimes ++ [rt]
  let rts2 := if rts1.length > 100 then rts1.drop 1 else rts1
  { metrics :=
      { st.metrics with
        requestsSuccessful :=
          st.metrics.requestsSuccessful + (if succeeded then 1 else 0),
        requestsFailed :=
          st.metrics.requestsFailed + (if succeeded then 0 else 1),
        averageResponseTime := updateAverage rts2 },
    requests := removeReq st.requests id,
    responseTimes := rts2 }

def recordRequestSuccess (st : MonitorState) (id : String) (now : Nat) :
    MonitorState :=
  match lookupReq st.requests id with
  | none => st
  | some start => completeRequest st id start now true

def recordRequestFailure (st : MonitorState) (id : String) (now : Nat) :
    MonitorState :=
  match lookupReq st.requests id with
  | none => st
  | some start => completeRequest st id start now false

/-- Canonical transport error message for an HTTP 401 failure: the send
path throws errors whose message is `HTTP <status>: <statusText>`. -/
def msg401 : List Char := "HTTP 401: Unauthorized".toList

/-- Canonical transport error message for an HTTP 503 failure. -/
def msg503 : List Char := "HTTP 503: Service Unavailable".toList

/-! ## Theorems -/

/-! ### Sanitizer: key provenance and stability -/

mutual
theorem keysFrom_sanitizeData (v : JsValue) : KeysFromSanitizer (sanitizeData v) := by
  cases v with
  | vstr s => simp [sanitizeData, KeysFromSanitizer]
  | vnum n => simp [sanitizeData, KeysFromSanitizer]
  | vbool b => simp [sanitizeData, KeysFromSanitizer]
  | vnull => simp [sanitizeData, KeysFromSanitizer]
  | varr xs =>
    simp [sanitizeData, KeysFromSanitizer]
    exact keysFrom_sanitizeArr xs
  | vobj fs =>
    simp [sanitizeData, KeysFromSanitizer]
    exact keysFrom_sanitizeFields fs

theorem keysFrom_sanitizeArr (xs : JsArr) : KeysFromSanitizerArr (sanitizeArr xs) := by
  cases xs with
  | anil => simp [sanitizeArr, KeysFromSanitizerArr]
  | acons x xs =>
    simp [sanitizeArr, KeysFromSanitizerArr]
    exact ⟨keysFrom_sanitizeData x, keysFrom_sanitizeArr xs⟩

theorem keysFrom_sanitizeFields (fs : JsObj) :
    KeysFromSanitizerFields (sanitizeFields fs) := by
  cases fs with
  | onil => simp [sanitizeFields, KeysFromSanitizerFields]
  | ocons k v fs =>
    by_cases hk : isSensitiveKey k = true
    · simp [sanitizeFields, hk]
      exact keysFrom_sanitizeFields fs
    · simp only [Bool.not_eq_true] at hk
      simp [sanitizeFields, hk, KeysFromSanitizerFields]
      exact ⟨⟨k, hk, rfl⟩, keysFrom_sanitizeData v, keysFrom_sanitizeFields fs⟩
end

mutual
theorem stable_sanitizeData (v : JsValue) (h : stableValue v = true) :
    sanitizeData v = v := by
  cases v with
  | vstr s =>
    simp [stableValue] at h
    simp [sanitizeData, h]
  | vnum n => rfl
  | vbool b => rfl
  | vnull => rfl
  | varr xs =>
    simp only [stableValue] at h
    simp [sanitizeData, stable_sanitizeArr xs h]
  | vobj fs =>
    simp only [stableValue] at h
    simp [sanitizeData, stable_sanitizeFields fs h]

theorem stable_sanitizeArr (xs : JsArr) (h : stableArr xs = true) :
    sanitizeArr xs = xs := by
  cases xs with
  | anil => rfl
  | acons x xs =>
    simp only [stableArr, Bool.and_eq_true] at h
    simp [sanitizeArr, stable_sanitizeData x h.1, stable_sanitizeArr xs h.2]

theorem stable_sanitizeFields (fs : JsObj) (h : stableFields fs = true) :
    sanitizeFields fs = fs := by
  cases fs with
  | onil => rfl
  | ocons k v fs =>
    simp only [stableFields, Bool.and_eq_true, Bool.not_eq_true'] at h
    obtain ⟨⟨⟨hk, hsens⟩, hv⟩, hfs⟩ := h
    simp only [beq_iff_eq] at hk
    simp [sanitizeFields, hsens, hk, stable_sanitizeData v hv,
      stable_sanitizeFields fs hfs]
end

/-- C5 (counterexample): the object `{"cookionx=": 1}` has no sensitive
key, yet sanitization rewrites the key to `"cookievent_removed="`, which
contains the denylist word `cookie` — so the output object carries a key
matching the sensitive-key denylist. -/
theorem sanitizeData_can_create_sensitive_key :
    isSensitiveKey "cookionx=".toList = false ∧
    sanitizeData (.vobj (.ocons "cookionx=".toList (.vnum 1) .onil)) =
      .vobj (.ocons "cookievent_removed=".toList (.vnum 1) .onil) ∧
    isSensitiveKey "cookievent_removed=".toList = true := by
  refine ⟨by decide, by decide, by decide⟩

/-- C5 (amended): sensitive input keys are dropped entirely — every
object key anywhere in `sanitizeData v` is the `sanitizeString` image of
some non-sensitive key, so no sensitive input key is ever carried
through (in sanitized form or otherwise); however the sanitized form of
a non-sensitive key may itself match the denylist. -/
theorem sanitizeData_output_keys_provenance :
    ∀ v : JsValue, KeysFromSanitizer (sanitizeData v) :=
  keysFrom_sanitizeData

/-- C6 (counterexample): `sanitizeData` is not idempotent.  For the
string `"<script>onx\n=</script>"` the first pass only rewrites the
`on\w+\s*=` pattern (the newline keeps `.*?` from closing the script
tag), producing `"<script>event_removed=</script>"`, which the second
pass collapses to `"[script removed]"`. -/
theorem sanitizeData_not_idempotent :
    sanitizeData (sanitizeData (.vstr "<script>onx\n=</script>".toList)) ≠
      sanitizeData (.vstr "<script>onx\n=</script>".toList) := by
  decide

/-- C6 (amended): `sanitizeData` is idempotent on every value whose
first-pass output is sanitization-stable — every string in
`sanitizeData x` a fixed point of `sanitizeString` and every key of
`sanitizeData x` also non-sensitive; in general a second pass can alter
the result (see the counterexample). -/
theorem sanitizeData_idempotent_on_stable (v : JsValue)
    (h : stableValue (sanitizeData v) = true) :
    sanitizeData (sanitizeData v) = sanitizeData v :=
  stable_sanitizeData (sanitizeData v) h

/-- C6 (witness): a concrete value on which the stability hypothesis
holds and the amended idempotence theorem applies. -/
theorem sanitizeData_idempotent_on_stable_witness :
    stableValue (sanitizeData (.vstr "hello".toList)) = true ∧
    sanitizeData (sanitizeData (.vstr "hello".toList)) =
      sanitizeData (.vstr "hello".toList) :=
  ⟨by decide, sanitizeData_idempotent_on_stable (.vstr "hello".toList) (by decide)⟩

/-! ### RetryManager -/

theorem runRetryGo_err_step {α : Type} (cfg : RetryConfig)
    (op : Nat → Except (List Char) α) (f attempt inv del : Nat) (e : List Char)
    (hop : op attempt = .error e) :
    runRetryGo cfg op (f + 1) attempt inv del =
      if attempt == cfg.maxRetries - 1 then ⟨.error (some e), inv + 1, del⟩
      else if !shouldRetry cfg e attempt then ⟨.error (some e), inv + 1, del⟩
      else runRetryGo cfg op f (attempt + 1) (inv + 1) (del + 1) := by
  simp only [runRetryGo, hop]

theorem runRetryGo_ok_step {α : Type} (cfg : RetryConfig)
    (op : Nat → Except (List Char) α) (f attempt inv del : Nat) (v : α)
    (hop : op attempt = .ok v) :
    runRetryGo cfg op (f + 1) attempt inv del = ⟨.ok v, inv + 1, del⟩ := by
  simp only [runRetryGo, hop]

/-- C1 (counterexample): under the default configuration
(`maxRetries = 3`) an operation that fails with HTTP 503 on its first
three attempts and would succeed on the fourth never reaches that
fourth attempt: `executeWithRetry` propagates the third failure after
exactly 3 invocations and 2 delayed retries, instead of returning the
success result preceded by 3 delayed retries as claimed. -/
theorem executeWithRetry_503x3_no_fourth_attempt :
    executeWithRetry defaultRetryConfig
        (fun a => if a < 3 then Except.error msg503 else Except.ok 42) =
      ⟨.error (some msg503), 3, 2⟩ := by
  decide

/-- C1 (amended): under the default configuration, an operation whose
first attempt fails with the HTTP 401 transport error is invoked
exactly once and that error is propagated with no delayed retry; an
operation failing with HTTP 503 on its first two attempts and
succeeding on the third returns the success result with exactly 2
delayed retries preceding it; and one failing with HTTP 503 on all
three attempts is invoked exactly `maxRetries = 3` times with 2 delayed
retries and the final error is propagated. -/
theorem executeWithRetry_default_behaviour :
    (∀ {α : Type} (op : Nat → Except (List Char) α),
      op 0 = .error msg401 →
      executeWithRetry defaultRetryConfig op = ⟨.error (some msg401), 1, 0⟩) ∧
    (∀ {α : Type} (op : Nat → Except (List Char) α) (v : α),
      op 0 = .error msg503 → op 1 = .error msg503 → op 2 = .ok v →
      executeWithRetry defaultRetryConfig op = ⟨.ok v, 3, 2⟩) ∧
    (∀ {α : Type} (op : Nat → Except (List Char) α),
      op 0 = .error msg503 → op 1 = .error msg503 → op 2 = .error msg503 →
      executeWithRetry defaultRetryConfig op = ⟨.error (some msg503), 3, 2⟩) := by
  have hs401 : shouldRetry defaultRetryConfig msg401 0 = false := by decide
  have hs0 : shouldRetry defaultRetryConfig msg503 0 = true := by decide
  have hs1 : shouldRetry defaultRetryConfig msg503 1 = true := by decide
  have hmr : defaultRetryConfig.maxRetries = 3 := rfl
  refine ⟨?_, ?_, ?_⟩
  · intro α op h0
    show runRetryGo defaultRetryConfig op (2 + 1) 0 0 0 = _
    rw [runRetryGo_err_step defaultRetryConfig op 2 0 0 0 msg401 h0]
    simp [hs401, hmr]
  · intro α op v h0 h1 h2
    show runRetryGo defaultRetryConfig op (2 + 1) 0 0 0 = _
    rw [runRetryGo_err_step defaultRetryConfig op 2 0 0 0 msg503 h0]
    simp only [hs0, hmr, Bool.not_true, Bool.false_eq_true, if_false,
      Nat.reduceBEq, Nat.reduceSub]
    show runRetryGo defaultRetryConfig op (1 + 1) 1 1 1 = _
    rw [runRetryGo_err_step defaultRetryConfig op 1 1 1 1 msg503 h1]
    simp only [hs1, hmr, Bool.not_true, Bool.false_eq_true, if_false,
      Nat.reduceBEq, Nat.reduceSub]
    show runRetryGo defaultRetryConfig op (0 + 1) 2 2 2 = _
    rw [runRetryGo_ok_step defaultRetryConfig op 0 2 2 2 v h2]
  · intro α op h0 h1 h2
    show runRetryGo defaultRetryConfig op (2 + 1) 0 0 0 = _
    rw [runRetryGo_err_step defaultRetryConfig op 2 0 0 0 msg503 h0]
    simp only [hs0, hmr, Bool.not_true, Bool.false_eq_true, if_false,
      Nat.reduceBEq, Nat.reduceSub]
    show runRetryGo defaultRetryConfig op (1 + 1) 1 1 1 = _
    rw [runRetryGo_err_step defaultRetryConfig op 1 1 1 1 msg503 h1]
    simp only [hs1, hmr, Bool.not_true, Bool.false_eq_true, if_false,
      Nat.reduceBEq, Nat.reduceSub]
    show runRetryGo defaultRetryConfig op (0 + 1) 2 2 2 = _
    rw [runRetryGo_err_step defaultRetryConfig op 0 2 2 2 msg503 h2]
    simp [hmr]

/-- C1 (witness): the amended theorem applied to concrete 401 and 503
operations. -/
theorem executeWithRetry_default_behaviour_witness :
    executeWithRetry defaultRetryConfig
        (fun _ => (Except.error msg401 : Except (List Char) Nat)) =
      ⟨.error (some msg401), 1, 0⟩ ∧
    executeWithRetry defaultRetryConfig
        (fun a => if a < 2 then Except.error msg503 else Except.ok 7) =
      ⟨.ok 7, 3, 2⟩ :=
  ⟨executeWithRetry_default_behaviour.1
      (fun _ => (Except.error msg401 : Except (List Char) Nat)) rfl,
   executeWithRetry_default_behaviour.2.1
      (fun a => if a < 2 then Except.error msg503 else Except.ok 7) 7
      rfl rfl rfl⟩

/-! ### RateLimiter -/

theorem fpLookup_fpSet (m : List (List Char × Nat)) (k : List Char) (t : Nat) :
    fpLookup (fpSet k t m) k = some t := by
  induction m with
  | nil => simp [fpSet, fpLookup, List.find?]
  | cons p ps ih =>
    by_cases h : p.1 == k
    · simp [fpSet, h, fpLookup, List.find?]
    · simp only [fpSet, h, if_false, Bool.false_eq_true]
      simpa [fpLookup, List.find?, h] using ih

/-- C2 (counterexample): the claim fails for the empty fingerprint.
`recordRequest("")` does not record it (`if (fingerprint)` is falsy for
the empty string), so `canReportError("")` still returns `true` one
millisecond later, inside the 5000 ms duplicate window. -/
theorem canReportError_empty_fingerprint_not_suppressed :
    canReportError defaultRateLimiterConfig
        (recordRequest initRateLimiter 5 (some [])) 6 [] = true ∧
    (6 : Int) - (5 : Int) ≤ (defaultRateLimiterConfig.duplicateErrorWindow : Int) := by
  refine ⟨by decide, by decide⟩

/-- C2 (amended): for every nonempty fingerprint `f` recorded at a
positive time `t` (both JS-truthy), `canReportError f` at time `t'` is
`false` while `t' - t ≤ duplicateErrorWindow` and `true` once
`t' - t > duplicateErrorWindow` (provided `f` is not recorded again);
and a fingerprint with no recorded last-seen time always yields `true`.
The falsy cases `f = ""` and `t = 0` are genuine exceptions (see the
counterexample). -/
theorem canReportError_after_recordRequest (cfg : RateLimiterConfig)
    (st : RateLimiterState) (f : List Char) (t t' : Nat)
    (hf : f ≠ []) (ht : 0 < t) :
    (((t' : Int) - (t : Int) ≤ (cfg.duplicateErrorWindow : Int)) →
       canReportError cfg (recordRequest st t (some f)) t' f = false) ∧
    (((t' : Int) - (t : Int) > (cfg.duplicateErrorWindow : Int)) →
       canReportError cfg (recordRequest st t (some f)) t' f = true) ∧
    (∀ (st2 : RateLimiterState) (t2 : Nat),
       fpLookup st2.errorFingerprints f = none →
       canReportError cfg st2 t2 f = true) := by
  have hne : f.isEmpty = false := by
    cases f with
    | nil => exact absurd rfl hf
    | cons c cs => rfl
  have hrec : (recordRequest st t (some f)).errorFingerprints =
      fpSet f t st.errorFingerprints := by
    simp [recordRequest, hne]
  have hcan : canReportError cfg (recordRequest st t (some f)) t' f =
      decide ((t' : Int) - (t : Int) > (cfg.duplicateErrorWindow : Int)) := by
    rw [canReportError, hrec, fpLookup_fpSet]
    have ht0 : (t == 0) = false := by
      simp only [beq_eq_false_iff_ne, ne_eq]
      omega
    simp [ht0]
  refine ⟨?_, ?_, ?_⟩
  · intro h
    rw [hcan]
    simpa using h
  · intro h
    rw [hcan]
    simpa using h
  · intro st2 t2 hnone
    simp [canReportError, hnone]

/-- C2 (witness): concrete suppressed-then-allowed behaviour for the
fingerprint `"a"` recorded at time 1 under the default configuration. -/
theorem canReportError_after_recordRequest_witness :
    canReportError defaultRateLimiterConfig
        (recordRequest initRateLimiter 1 (some ['a'])) 2 ['a'] = false ∧
    canReportError defaultRateLimiterConfig
        (recordRequest initRateLimiter 1 (some ['a'])) 6000 ['a'] = true ∧
    canReportError defaultRateLimiterConfig initRateLimiter 7 ['a'] = true :=
  ⟨(canReportError_after_recordRequest defaultRateLimiterConfig initRateLimiter
      ['a'] 1 2 (by decide) (by decide)).1 (by decide),
   (canReportError_after_recordRequest defaultRateLimiterConfig initRateLimiter
      ['a'] 1 6000 (by decide) (by decide)).2.1 (by decide),
   (canReportError_after_recordRequest defaultRateLimiterConfig initRateLimiter
      ['a'] 1 2 (by decide) (by decide)).2.2 initRateLimiter 7 (by decide)⟩

/-! ### CircuitBreaker -/

theorem applyFailures_closed_aux (cfg : CircuitBreakerConfig) (ts : List Nat) :
    ∀ (c s : Nat) (lf : Option Nat),
      c + ts.length < cfg.failureThreshold →
      ∃ lf', applyFailures cfg ⟨.cbClosed, c, s, lf, none⟩ ts =
        ⟨.cbClosed, c + ts.length, s, lf', none⟩ := by
  induction ts with
  | nil =>
    intro c s lf _
    exact ⟨lf, rfl⟩
  | cons t ts ih =>
    intro c s lf h
    have hstep : (cbExecute (ε := Unit) (α := Unit) cfg ⟨.cbClosed, c, s, lf, none⟩
        t (.error ())).2 = ⟨.cbClosed, c + 1, s, some t, none⟩ := by
      have hnotrip : ¬ c + 1 ≥ cfg.failureThreshold := by
        simp only [List.length_cons] at h
        omega
      simp [cbExecute, isCallAllowed, onFailure, hnotrip]
    have h' : (c + 1) + ts.length < cfg.failureThreshold := by
      simp only [List.length_cons] at h
      omega
    obtain ⟨lf', hlf'⟩ := ih (c + 1) s (some t) h'
    refine ⟨lf', ?_⟩
    show applyFailures cfg _ (t :: ts) = _
    rw [applyFailures, List.foldl_cons]
    rw [applyFailures] at hlf'
    simp only [List.length_cons]
    rw [hstep] at *
    rw [hlf']
    congr 1
    omega

/-- C3: from `CLOSED`, after `failureThreshold` consecutive failed
`execute` calls (the last at time `tn > 0`) the state is `OPEN` with
`nextRetryTime = tn + timeout`; every `execute` call at a time
`t' < tn + timeout` rejects with the circuit-open error without
invoking the operation (the result and the unchanged state are
independent of the operation's outcome `r`); once `tn + timeout ≤ t'`,
the call is admitted with the state moved to `HALF_OPEN`, and a success
resets the breaker to `CLOSED` with both counters zeroed. -/
theorem circuitBreaker_trip_reject_halfOpen_reset (cfg : CircuitBreakerConfig)
    (ts₀ : List Nat) (tn : Nat)
    (hlen : ts₀.length + 1 = cfg.failureThreshold) (htn : 0 < tn) :
    applyFailures cfg cbInit (ts₀ ++ [tn]) =
      ⟨.cbOpen, cfg.failureThreshold, 0, some tn, some (tn + cfg.timeout)⟩ ∧
    (∀ (t' : Nat) (r : Except Unit Unit), t' < tn + cfg.timeout →
      cbExecute cfg (applyFailures cfg cbInit (ts₀ ++ [tn])) t' r =
        (.error .circuitOpen, applyFailures cfg cbInit (ts₀ ++ [tn]))) ∧
    (∀ t' : Nat, tn + cfg.timeout ≤ t' →
      (isCallAllowed (applyFailures cfg cbInit (ts₀ ++ [tn])) t').1 = true ∧
      (isCallAllowed (applyFailures cfg cbInit (ts₀ ++ [tn])) t').2.state =
        .cbHalfOpen ∧
      (∀ v : Unit,
        cbExecute (ε := Unit) cfg (applyFailures cfg cbInit (ts₀ ++ [tn])) t' (.ok v) =
          (.ok v, cbInit))) := by
  have hth : 0 + ts₀.length < cfg.failureThreshold := by omega
  obtain ⟨lf', hfold⟩ := applyFailures_closed_aux cfg ts₀ 0 0 none hth
  have hopen : applyFailures cfg cbInit (ts₀ ++ [tn]) =
      ⟨.cbOpen, cfg.failureThreshold, 0, some tn, some (tn + cfg.timeout)⟩ := by
    rw [applyFailures, List.foldl_append]
    rw [applyFailures] at hfold
    rw [show cbInit = (⟨.cbClosed, 0, 0, none, none⟩ : CBState) from rfl, hfold]
    have htrip : ts₀.length + 1 ≥ cfg.failureThreshold := by omega
    simp [cbExecute, isCallAllowed, onFailure, tripCircuit, htrip]
    omega
  refine ⟨hopen, ?_, ?_⟩
  · intro t' r hlt
    rw [hopen]
    have hcond : ¬ ((tn = 0 → ¬cfg.timeout = 0) ∧ tn + cfg.timeout ≤ t') := by omega
    simp [cbExecute, isCallAllowed, hcond]
  · intro t' hle
    rw [hopen]
    have hcond : tn + cfg.timeout ≠ 0 ∧ tn + cfg.timeout ≤ t' := ⟨by omega, hle⟩
    refine ⟨?_, ?_, ?_⟩
    · simp only [isCallAllowed]
      rw [if_pos hcond]
    · simp only [isCallAllowed]
      rw [if_pos hcond]
    · intro v
      simp only [cbExecute, isCallAllowed]
      rw [if_pos hcond]
      simp [onSuccess, cbReset, cbInit]

/-- C3 (witness): default configuration (`failureThreshold = 5`,
`timeout = 30000`), five failures at times 1,…,1,2, a rejected call at
time 100 and an admitted, resetting success at time 30002. -/
theorem circuitBreaker_trip_reject_halfOpen_reset_witness :
    applyFailures defaultCircuitBreakerConfig cbInit [1, 1, 1, 1, 2] =
      ⟨.cbOpen, 5, 0, some 2, some 30002⟩ ∧
    cbExecute (ε := Unit) defaultCircuitBreakerConfig
        (applyFailures defaultCircuitBreakerConfig cbInit [1, 1, 1, 1, 2]) 100
        (.ok ()) =
      (.error .circuitOpen,
        applyFailures defaultCircuitBreakerConfig cbInit [1, 1, 1, 1, 2]) ∧
    cbExecute (ε := Unit) defaultCircuitBreakerConfig
        (applyFailures defaultCircuitBreakerConfig cbInit [1, 1, 1, 1, 2]) 30002
        (.ok ()) =
      (.ok (), cbInit) := by
  have h := circuitBreaker_trip_reject_halfOpen_reset defaultCircuitBreakerConfig
    [1, 1, 1, 1] 2 (by decide) (by decide)
  exact ⟨h.1, h.2.1 100 (.ok ()) (by decide), (h.2.2 30002 (by decide)).2.2 ()⟩

/-! ### QuotaManager -/

theorem recordFold_burst (cfg : QuotaConfig) (records : List (Nat × Nat × Nat)) :
    ∀ st : QuotaStateM,
      (∀ r ∈ records, r.1 < st.burst.resetTime) →
      (records.foldl (fun s r => recordErrorSent cfg r.1 r.2.1 r.2.2 s) st).burst =
        ⟨st.burst.used + records.length, st.burst.resetTime⟩ := by
  induction records with
  | nil =>
    intro st _
    simp
  | cons r rs ih =>
    intro st h
    have hr : r.1 < st.burst.resetTime := h r (by simp)
    have hstep : (recordErrorSent cfg r.1 r.2.1 r.2.2 st).burst =
        ⟨st.burst.used + 1, st.burst.resetTime⟩ := by
      have hno : ¬ r.1 ≥ st.burst.resetTime := by omega
      simp [recordErrorSent, checkAndResetQuotas, hno]
    rw [List.foldl_cons]
    rw [ih (recordErrorSent cfg r.1 r.2.1 r.2.2 st)
      (by intro q hq; rw [hstep]; exact h q (by simp [hq]))]
    rw [hstep]
    simp only [List.length_cons]
    congr 1
    omega

/-- C4: (a) after `burstLimit` calls to `recordErrorSent` within one
burst window (all call times and the query time before the burst
`resetTime`), `canSendError` answers
`(false, "Burst limit exceeded")` regardless of the daily and monthly
counters of the starting state and of the payload size; (b)
`recordErrorSent` increments all three (reset-adjusted) counters in one
operation; (c) the checks are ordered burst, then daily, then monthly,
then payload size. -/
theorem quotaManager_burst_priority_and_increments :
    (∀ (cfg : QuotaConfig) (st : QuotaStateM) (records : List (Nat × Nat × Nat))
       (t' nd' nm' sz : Nat),
      records.length = cfg.burstLimit →
      (∀ r ∈ records, r.1 < st.burst.resetTime) →
      t' < st.burst.resetTime →
      (canSendError cfg t' nd' nm' sz
        (records.foldl (fun s r => recordErrorSent cfg r.1 r.2.1 r.2.2 s) st)).1 =
        (false, some "Burst limit exceeded")) ∧
    (∀ (cfg : QuotaConfig) (now nd nm : Nat) (st : QuotaStateM),
      (recordErrorSent cfg now nd nm st).daily.used =
        (checkAndResetQuotas cfg now nd nm st).daily.used + 1 ∧
      (recordErrorSent cfg now nd nm st).monthly.used =
        (checkAndResetQuotas cfg now nd nm st).monthly.used + 1 ∧
      (recordErrorSent cfg now nd nm st).burst.used =
        (checkAndResetQuotas cfg now nd nm st).burst.used + 1) ∧
    (∀ (cfg : QuotaConfig) (now nd nm sz : Nat) (st : QuotaStateM),
      ((checkAndResetQuotas cfg now nd nm st).burst.used ≥ cfg.burstLimit →
        (canSendError cfg now nd nm sz st).1 = (false, some "Burst limit exceeded")) ∧
      ((checkAndResetQuotas cfg now nd nm st).burst.used < cfg.burstLimit →
       (checkAndResetQuotas cfg now nd nm st).daily.used ≥ cfg.dailyLimit →
        (canSendError cfg now nd nm sz st).1 = (false, some "Daily limit exceeded")) ∧
      ((checkAndResetQuotas cfg now nd nm st).burst.used < cfg.burstLimit →
       (checkAndResetQuotas cfg now nd nm st).daily.used < cfg.dailyLimit →
       (checkAndResetQuotas cfg now nd nm st).monthly.used ≥ cfg.monthlyLimit →
        (canSendError cfg now nd nm sz st).1 = (false, some "Monthly limit exceeded")) ∧
      ((checkAndResetQuotas cfg now nd nm st).burst.used < cfg.burstLimit →
       (checkAndResetQuotas cfg now nd nm st).daily.used < cfg.dailyLimit →
       (checkAndResetQuotas cfg now nd nm st).monthly.used < cfg.monthlyLimit →
       sz > cfg.payloadSizeLimit →
        (canSendError cfg now nd nm sz st).1 =
          (false, some "Payload size limit exceeded"))) := by
  refine ⟨?_, ?_, ?_⟩
  · intro cfg st records t' nd' nm' sz hlen hrec ht'
    have hburst := recordFold_burst cfg records st hrec
    set stN := records.foldl (fun s r => recordErrorSent cfg r.1 r.2.1 r.2.2 s) st
      with hstN
    have hused : stN.burst.used = st.burst.used + records.length := by rw [hburst]
    have hrt : stN.burst.resetTime = st.burst.resetTime := by rw [hburst]
    have hreset : (checkAndResetQuotas cfg t' nd' nm' stN).burst = stN.burst := by
      have hno : ¬ t' ≥ stN.burst.resetTime := by
        rw [hrt]
        omega
      simp [checkAndResetQuotas, hno]
    have hge : (checkAndResetQuotas cfg t' nd' nm' stN).burst.used ≥ cfg.burstLimit := by
      rw [hreset, hused]
      omega
    simp only [canSendError]
    rw [if_pos hge]
  · intro cfg now nd nm st
    exact ⟨rfl, rfl, rfl⟩
  · intro cfg now nd nm sz st
    refine ⟨?_, ?_, ?_, ?_⟩
    · intro h1
      simp only [canSendError]
      rw [if_pos h1]
    · intro h1 h2
      simp only [canSendError]
      rw [if_neg (by omega), if_pos h2]
    · intro h1 h2 h3
      simp only [canSendError]
      rw [if_neg (by omega), if_neg (by omega), if_pos h3]
    · intro h1 h2 h3 h4
      simp only [canSendError]
      rw [if_neg (by omega), if_neg (by omega), if_neg (by omega), if_pos h4]

/-- C4 (witness): with `burstLimit = 2`, two records at times 1 and 2
inside the burst window ending at 100 and a query at time 3, the answer
is the burst refusal even though daily and monthly counters are far
below their limits; plus a concrete application of the priority chain. -/
theorem quotaManager_burst_priority_and_increments_witness :
    (canSendError ⟨1000, 10000, 1048576, 2, 60000⟩ 3 7 8 0
      ([((1 : Nat), (7 : Nat), (8 : Nat)), (2, 7, 8)].foldl
        (fun s r => recordErrorSent ⟨1000, 10000, 1048576, 2, 60000⟩ r.1 r.2.1 r.2.2 s)
        ⟨⟨0, 100⟩, ⟨0, 100⟩, ⟨0, 100⟩⟩)).1 =
      (false, some "Burst limit exceeded") ∧
    (canSendError ⟨1, 1, 10, 5, 60000⟩ 3 100 100 99 ⟨⟨1, 100⟩, ⟨1, 100⟩, ⟨0, 100⟩⟩).1 =
      (false, some "Daily limit exceeded") :=
  ⟨quotaManager_burst_priority_and_increments.1 ⟨1000, 10000, 1048576, 2, 60000⟩
      ⟨⟨0, 100⟩, ⟨0, 100⟩, ⟨0, 100⟩⟩ [(1, 7, 8), (2, 7, 8)] 3 7 8 0
      (by decide) (by decide) (by decide),
   (quotaManager_burst_priority_and_increments.2.2 ⟨1, 1, 10, 5, 60000⟩ 3 100 100 99
      ⟨⟨1, 100⟩, ⟨1, 100⟩, ⟨0, 100⟩⟩).2.1 (by decide) (by decide)⟩

/-! ### Retry delay jitter (C7) -/

/-- C7 (code-bug evidence): under the default configuration at attempt
0 the capped base delay is 1000, and for every jitter draw
`r ∈ [0, 1)` the computed delay lies in `[875, 1125)` — i.e. ±12.5 % of
the base — with the extreme 875 attained at `r = 0`.  The jitter term
`capped * 0.25 * (r - 0.5)` therefore never spans the ±25 % range that
the code comment and the specification state (that would reach down to
750 and up to 1250). -/
theorem calculateDelay_jitter_eighth_not_quarter :
    calculateDelay defaultRetryConfig 0 0 = 875 ∧
    (∀ r : ℚ, 0 ≤ r → r < 1 →
      875 ≤ calculateDelay defaultRetryConfig 0 r ∧
      calculateDelay defaultRetryConfig 0 r < 1125) := by
  have hval : ∀ r : ℚ, 0 ≤ r →
      calculateDelay defaultRetryConfig 0 r = 875 + 250 * r := by
    intro r h0
    show max 0 ((1000 : ℚ) * 2 ^ 0 ⊓ 30000 +
      ((1000 : ℚ) * 2 ^ 0 ⊓ 30000) * (1 / 4) * (r - 1 / 2)) = 875 + 250 * r
    have hmin : ((1000 : ℚ) * 2 ^ 0 ⊓ 30000) = 1000 := by norm_num [min_def]
    rw [hmin]
    rw [max_eq_right (by linarith)]
    ring
  refine ⟨?_, ?_⟩
  · rw [hval 0 le_rfl]
    norm_num
  · intro r h0 h1
    rw [hval r h0]
    constructor <;> linarith

/-- C7 (witness): the bound theorem applied at the concrete draw
`r = 1/2` (the jitter-free midpoint, delay exactly 1000). -/
theorem calculateDelay_jitter_eighth_not_quarter_witness :
    875 ≤ calculateDelay defaultRetryConfig 0 (1 / 2) ∧
    calculateDelay defaultRetryConfig 0 (1 / 2) < 1125 :=
  calculateDelay_jitter_eighth_not_quarter.2 (1 / 2) (by norm_num) (by norm_num)

/-! ### OfflineManager (C8) -/

theorem requeueStep_eq {ρ : Type} (outcome : ρ → Bool)
    (rs : List (QueuedReport ρ)) :
    ∀ q, requeueStep outcome rs q =
      (rs.filterMap (requeueUpdate outcome)).reverse ++ q := by
  induction rs with
  | nil => intro q; simp [requeueStep]
  | cons r rs ih =>
    intro q
    by_cases ho : outcome r.report
    · simp [requeueStep, ho, requeueUpdate, List.filterMap_cons, ih]
    · by_cases ha : r.attempts + 1 < 3
      · simp only [requeueStep, ho, Bool.false_eq_true, if_false, ha, if_true, ih,
          requeueUpdate, List.filterMap_cons]
        simp [List.reverse_cons]
      · simp only [requeueStep, ho, Bool.false_eq_true, if_false, ha, if_true, ih,
          requeueUpdate, List.filterMap_cons]

/-- C8: with a send function configured, not already processing and
online, one `processQueue` pass takes the first 5 queued reports and
leaves the queue equal to the processed survivors (in reverse
processing order, i.e. re-inserted at the front) followed by the
untouched remainder; a processed report survives with its `attempts`
bumped exactly when its send failed and the bumped count is below the
cap of 3 — successfully sent reports and reports already at 3 attempts
that fail again are removed. -/
theorem processQueue_front_requeue_and_cap {ρ : Type} (outcome : ρ → Bool)
    (queue : List (QueuedReport ρ)) :
    (processQueue true false true outcome queue =
      ((queue.take 5).filterMap (requeueUpdate outcome)).reverse ++ queue.drop 5) ∧
    (∀ r : QueuedReport ρ, outcome r.report = true → requeueUpdate outcome r = none) ∧
    (∀ r : QueuedReport ρ, outcome r.report = false → 3 ≤ r.attempts →
      requeueUpdate outcome r = none) ∧
    (∀ r : QueuedReport ρ, outcome r.report = false → r.attempts + 1 < 3 →
      requeueUpdate outcome r = some { r with attempts := r.attempts + 1 }) := by
  refine ⟨?_, ?_, ?_, ?_⟩
  · simp [processQueue, requeueStep_eq]
  · intro r h
    simp [requeueUpdate, h]
  · intro r h h3
    have : ¬ r.attempts + 1 < 3 := by omega
    simp [requeueUpdate, h, this]
  · intro r h h3
    simp [requeueUpdate, h, h3]

/-- C8 (witness): a five-report queue processed with the middle report
failing below the cap (re-inserted at the front with `attempts := 2`),
one failing at the cap (dropped) and the rest succeeding. -/
theorem processQueue_front_requeue_and_cap_witness :
    processQueue true false true (fun r => r ≠ 1 ∧ r ≠ 3 : Nat → Bool)
        [⟨0, 10, 0⟩, ⟨1, 10, 1⟩, ⟨2, 10, 0⟩, ⟨3, 10, 3⟩, ⟨4, 10, 0⟩, ⟨5, 10, 0⟩] =
      [⟨1, 10, 2⟩, ⟨5, 10, 0⟩] ∧
    requeueUpdate (fun r => r ≠ 1 ∧ r ≠ 3 : Nat → Bool) ⟨3, 10, 3⟩ = none := by
  have h := processQueue_front_requeue_and_cap
    (fun r => r ≠ 1 ∧ r ≠ 3 : Nat → Bool)
    [⟨0, 10, 0⟩, ⟨1, 10, 1⟩, ⟨2, 10, 0⟩, ⟨3, 10, 3⟩, ⟨4, 10, 0⟩, ⟨5, 10, 0⟩]
  refine ⟨?_, h.2.2.1 ⟨3, 10, 3⟩ (by decide) (by decide)⟩
  rw [h.1]
  decide

/-! ### BatchManager (C9) -/

/-- C9 (counterexample): with `batchSize = 2`, after `add, add` (the
second triggering a successful send) and one further `add`, the batch
counter is 1 (> 0) and `totalErrors` is 3, yet `averageBatchSize` is
still 2 ≠ 3/1: the statistic is stale after `addToBatch` calls that do
not send, so the claimed equality does not hold after every sequence of
adds and sends. -/
theorem batchStats_average_stale_after_add :
    (([BatchEvent.add 0 .sendOk, .add 1 .sendOk, .add 2 .sendOk]).foldl
      (batchStep ⟨2, 5000, 1048576⟩ (fun _ => 0)) (initBatchState (α := Nat))).stats.totalBatches
      = 1 ∧
    (([BatchEvent.add 0 .sendOk, .add 1 .sendOk, .add 2 .sendOk]).foldl
      (batchStep ⟨2, 5000, 1048576⟩ (fun _ => 0)) (initBatchState (α := Nat))).stats.totalErrors
      = 3 ∧
    (([BatchEvent.add 0 .sendOk, .add 1 .sendOk, .add 2 .sendOk]).foldl
      (batchStep ⟨2, 5000, 1048576⟩ (fun _ => 0)) (initBatchState (α := Nat))).stats.averageBatchSize
      ≠
    ((([BatchEvent.add 0 .sendOk, .add 1 .sendOk, .add 2 .sendOk]).foldl
      (batchStep ⟨2, 5000, 1048576⟩ (fun _ => 0)) (initBatchState (α := Nat))).stats.totalErrors : ℚ) /
    ((([BatchEvent.add 0 .sendOk, .add 1 .sendOk, .add 2 .sendOk]).foldl
      (batchStep ⟨2, 5000, 1048576⟩ (fun _ => 0)) (initBatchState (α := Nat))).stats.totalBatches : ℚ) := by
  refine ⟨?_, ?_, ?_⟩ <;>
    norm_num [batchStep, addToBatch, sendBatchStep, shouldSendBatch, initBatchState]

/-- C9 (amended): `totalBatches` is incremented only by a successful
send (never by a failed or skipped one), and immediately after every
step that performs a successful send `averageBatchSize` equals
`totalErrors / totalBatches`; every other step leaves both
`totalBatches` and `averageBatchSize` unchanged (so the statistic can
be stale between successful sends, as the counterexample shows). -/
theorem batchStats_average_exact_on_successful_send {α : Type}
    (cfg : BatchConfig) (sizeFn : List α → Nat) (st : BatchState α)
    (ev : BatchEvent α) :
    ((batchStep cfg sizeFn st ev).stats.totalBatches = st.stats.totalBatches ∧
     (batchStep cfg sizeFn st ev).stats.averageBatchSize = st.stats.averageBatchSize) ∨
    ((batchStep cfg sizeFn st ev).stats.totalBatches = st.stats.totalBatches + 1 ∧
     (batchStep cfg sizeFn st ev).stats.averageBatchSize =
       ((batchStep cfg sizeFn st ev).stats.totalErrors : ℚ) /
         ((batchStep cfg sizeFn st ev).stats.totalBatches : ℚ) ∧
     batchEventRes ev = .sendOk) := by
  have hsend : ∀ s : BatchState α, ∀ res : SendRes,
      ((sendBatchStep s res).stats.totalBatches = s.stats.totalBatches ∧
       (sendBatchStep s res).stats.averageBatchSize = s.stats.averageBatchSize) ∨
      ((sendBatchStep s res).stats.totalBatches = s.stats.totalBatches + 1 ∧
       (sendBatchStep s res).stats.averageBatchSize =
         ((sendBatchStep s res).stats.totalErrors : ℚ) /
           ((sendBatchStep s res).stats.totalBatches : ℚ) ∧
       res = .sendOk) := by
    intro s res
    by_cases he : s.currentBatch.isEmpty
    · left
      simp [sendBatchStep, he]
    · cases res with
      | noFn => left; simp [sendBatchStep, he]
      | sendFail => left; simp [sendBatchStep, he]
      | sendOk => right; simp [sendBatchStep, he]
  cases ev with
  | add e res =>
    simp only [batchStep, addToBatch, batchEventRes]
    by_cases hs : shouldSendBatch cfg sizeFn
        { st with currentBatch := st.currentBatch ++ [e],
                  stats := { st.stats with
                    currentSize := st.currentBatch.length + 1,
                    totalErrors := st.stats.totalErrors + 1 } }
    · simp only [hs, if_true]
      rcases hsend _ res with h | h
      · left
        exact ⟨h.1, h.2⟩
      · right
        exact ⟨h.1, h.2.1, h.2.2⟩
    · simp only [hs, if_false, Bool.false_eq_true]
      left
      by_cases harm : st.timeoutArmed <;> simp [harm]
  | flushEv res =>
    simp only [batchStep, batchEventRes]
    by_cases hl : st.currentBatch.length > 0
    · simp only [hl, if_true]
      rcases hsend st res with h | h
      · left; exact h
      · right; exact h
    · simp only [hl, if_false]
      left
      simp
  | timerEv res =>
    simp only [batchStep, batchEventRes]
    by_cases hl : st.currentBatch.length > 0
    · simp only [hl, if_true]
      rcases hsend st res with h | h
      · left; exact h
      · right; exact h
    · simp only [hl, if_false]
      left
      simp

/-! ### SDKMonitor (C10) -/

theorem lookupReq_removeReq (rs : List (String × Nat)) (id : String) :
    lookupReq (removeReq rs id) id = none := by
  induction rs with
  | nil => simp [lookupReq, removeReq, List.find?]
  | cons p ps ih =>
    by_cases h : p.1 == id
    · simp only [removeReq, List.filter_cons]
      have : (p.1 != id) = false := by simpa using h
      simp only [this, Bool.false_eq_true, if_false]
      simpa [removeReq] using ih
    · simp only [removeReq, List.filter_cons]
      have hne : (p.1 != id) = true := by simpa using h
      simp only [hne, if_true]
      simp only [lookupReq, removeReq, List.find?, h] at ih ⊢
      exact ih

/-- C10: calling `recordRequestSuccess` or `recordRequestFailure` with
a request id that is not in the active-request map (never issued, or
already completed and hence deleted) returns the state unchanged — all
metrics counters, the response-time window, the average response time
and the active-request set are untouched; and completing an active
request removes its id, so a second completion call for the same id is
such a no-op. -/
theorem monitor_unknown_or_completed_request_noop :
    (∀ (st : MonitorState) (id : String) (now : Nat),
      lookupReq st.requests id = none →
      recordRequestSuccess st id now = st ∧ recordRequestFailure st id now = st) ∧
    (∀ (st : MonitorState) (id : String) (now start : Nat),
      lookupReq st.requests id = some start →
      lookupReq (recordRequestSuccess st id now).requests id = none ∧
      lookupReq (recordRequestFailure st id now).requests id = none) := by
  refine ⟨?_, ?_⟩
  · intro st id now h
    constructor <;> simp [recordRequestSuccess, recordRequestFailure, h]
  · intro st id now start h
    constructor <;>
      simp [recordRequestSuccess, recordRequestFailure, h, completeRequest,
        lookupReq_removeReq]

/-- C10 (witness): a monitor state with one active request `"a"`
started at time 5: completing the unknown id `"b"` is a no-op, and
after completing `"a"` its id is gone from the active set. -/
theorem monitor_unknown_or_completed_request_noop_witness :
    recordRequestSuccess ⟨⟨0, 0, 0, 0, 0, 0, 0⟩, [("a", 5)], []⟩ "b" 9 =
      ⟨⟨0, 0, 0, 0, 0, 0, 0⟩, [("a", 5)], []⟩ ∧
    lookupReq (recordRequestSuccess ⟨⟨0, 0, 0, 0, 0, 0, 0⟩, [("a", 5)], []⟩ "a" 9).requests
      "a" = none :=
  ⟨(monitor_unknown_or_completed_request_noop.1
      ⟨⟨0, 0, 0, 0, 0, 0, 0⟩, [("a", 5)], []⟩ "b" 9 (by decide)).1,
   (monitor_unknown_or_completed_request_noop.2
      ⟨⟨0, 0, 0, 0, 0, 0, 0⟩, [("a", 5)], []⟩ "a" 9 5 (by decide)).1⟩

end ErrSDK
